import Mathlib

/-!
# HESMS memory / knowledge subsystem: a shallow embedding

This file embeds the hierarchical episodic-semantic memory subsystem of the
HESMS repository (the `MemoryManager` / `SemanticMemory` classes of the
memory-extension module and the `KnowledgeEntry` / `CrossRealitySystem`
classes of `ArgOS-Framework-Integration.js`) as executable Lean definitions,
and proves or refutes the frozen specification claims about them.

Conventions of the embedding:
* JavaScript numbers are modelled as rationals (`ℚ`); timestamps as `ℤ`.
* Euclidean distance comparisons `Math.hypot(dx,dy) < r` are modelled as
  `dx^2 + dy^2 < r^2` (equivalent for nonnegative `r`).
* JavaScript `Map`s are modelled as association lists in insertion order
  (`Map` iteration order is insertion order), plain objects as association
  lists keyed by `String`.
* `Map.get` returning `undefined` is modelled as `Option`; an operation that
  would throw a `TypeError` (e.g. calling `.filter` on `undefined`) is
  modelled as returning `none` at the point of the throw.
-/

namespace HESMS

/-- Dynamic condition/outcome values occurring in knowledge patterns
(numbers, booleans, strings, and JS `null`). -/
inductive CVal where
  | num (q : ℚ)
  | bool (b : Bool)
  | str (s : String)
  | null
deriving DecidableEq

/-- A condition of a knowledge pattern:
`{property, operator, value?, valueRange?, generalized?}`.
`value = none` models an absent / `undefined` value. -/
structure Condition where
  property : String
  operator : String
  value : Option CVal
  valueRange : Option (ℚ × ℚ)
  generalized : Bool
deriving DecidableEq

/-- A knowledge pattern `{type, conditions, outcome, universalPrinciple?}`.
The `description` and `level` strings carried by JS pattern objects are not
read by any of the algorithms below and are omitted. -/
structure KPattern where
  type : String
  conditions : List Condition
  outcome : List (String × CVal)
  universalPrinciple : Bool
deriving DecidableEq

/-- Knowledge abstraction level (`'low' | 'mid' | 'high'`). -/
inductive KLevel where
  | low
  | mid
  | high
deriving DecidableEq

/-- Per-environment transfer success record `{success, total}`. -/
structure TransferRecord where
  success : Nat
  total : Nat
deriving DecidableEq

/-- `KnowledgeEntry` (ArgOS-Framework-Integration.js, lines 3681-3695).
The random string `id` is dropped (entries are identified by their position
in the tier list); `instances` only ever has its length consulted
(`updateConfidence`), so it is carried as a count. -/
structure KnowledgeEntry where
  pattern : KPattern
  level : KLevel
  confidence : ℚ
  instances : Nat
  environmentIds : List Nat
  applicationCount : Nat
  successCount : Nat
  transferSuccess : List (Nat × TransferRecord)
  created : ℤ
  lastConfirmed : ℤ
  lastUsed : ℤ
deriving DecidableEq

namespace Config

/-- `CROSS_REALITY_CONFIG.LOW_LEVEL_CAPACITY` -/
def LOW_LEVEL_CAPACITY : Nat := 20
/-- `CROSS_REALITY_CONFIG.MID_LEVEL_CAPACITY` -/
def MID_LEVEL_CAPACITY : Nat := 15
/-- `CROSS_REALITY_CONFIG.HIGH_LEVEL_CAPACITY` -/
def HIGH_LEVEL_CAPACITY : Nat := 10
/-- `CROSS_REALITY_CONFIG.ABSTRACTION_CONFIDENCE_THRESHOLD` -/
def ABSTRACTION_CONFIDENCE_THRESHOLD : ℚ := 6/10
/-- `CROSS_REALITY_CONFIG.ABSTRACTION_INSTANCE_THRESHOLD` -/
def ABSTRACTION_INSTANCE_THRESHOLD : Nat := 5
/-- `CROSS_REALITY_CONFIG.KNOWLEDGE_DECAY_RATE` -/
def KNOWLEDGE_DECAY_RATE : ℚ := 5/100
/-- `CROSS_REALITY_CONFIG.MINIMUM_KNOWLEDGE_CONFIDENCE` -/
def MINIMUM_KNOWLEDGE_CONFIDENCE : ℚ := 2/10
/-- `CROSS_REALITY_CONFIG.VALIDATION_THRESHOLD` -/
def VALIDATION_THRESHOLD : ℚ := 7/10
/-- `CROSS_REALITY_CONFIG.ENVIRONMENT_TRANSITION_THRESHOLD` -/
def ENVIRONMENT_TRANSITION_THRESHOLD : ℚ := 6/10
/-- `CONFIG.RETRY_DELAY` of the memory-extension module -/
def RETRY_DELAY : Nat := 1000
/-- `CONFIG.MAX_RETRIES` of the memory-extension module -/
def MAX_RETRIES : Nat := 3
/-- `CONFIG.BATCH_SIZE` of the memory-extension module -/
def BATCH_SIZE : Nat := 50

end Config

/-- Fresh `KnowledgeEntry` as built by the `KnowledgeEntry` constructor:
confidence starts at `0.5`, no instances, environment list seeded from the
optional `environmentId` argument, all clocks at creation time `now`. -/
def KnowledgeEntry.mk0 (pattern : KPattern) (level : KLevel)
    (environmentId : Option Nat) (now : ℤ) : KnowledgeEntry :=
  { pattern := pattern
    level := level
    confidence := 1/2
    instances := 0
    environmentIds := match environmentId with
      | some e => [e]
      | none => []
    applicationCount := 0
    successCount := 0
    transferSuccess := []
    created := now
    lastConfirmed := now
    lastUsed := now }

/-- `KnowledgeEntry.updateConfidence` (lines 3747-3780): confidence is a
level-weighted combination of instance count, application success rate
(defaulting to `0.5` with no applications) and environment breadth. -/
def KnowledgeEntry.updateConfidence (k : KnowledgeEntry) : KnowledgeEntry :=
  let instanceFactor : ℚ :=
    min 1 ((k.instances : ℚ) / (Config.ABSTRACTION_INSTANCE_THRESHOLD : ℚ))
  let applicationFactor : ℚ :=
    if k.applicationCount > 0 then
      (k.successCount : ℚ) / (k.applicationCount : ℚ)
    else 1/2
  let environmentFactor : ℚ := min 1 ((k.environmentIds.length : ℚ) / 3)
  let weights : ℚ × ℚ × ℚ :=
    match k.level with
    | .low => (6/10, 3/10, 1/10)
    | .mid => (4/10, 4/10, 2/10)
    | .high => (2/10, 5/10, 3/10)
  { k with
    confidence := weights.1 * instanceFactor + weights.2.1 * applicationFactor +
      weights.2.2 * environmentFactor }

/-- `KnowledgeEntry.addInstance` (lines 3700-3717): push the instance, record
its environment id if new, recompute confidence, stamp `lastConfirmed`. -/
def KnowledgeEntry.addInstance (k : KnowledgeEntry)
    (environmentId : Option Nat) (now : ℤ) : KnowledgeEntry :=
  let k1 :=
    { k with
      instances := k.instances + 1
      environmentIds := match environmentId with
        | some e =>
          if e ∈ k.environmentIds then k.environmentIds
          else k.environmentIds ++ [e]
        | none => k.environmentIds }
  { k1.updateConfidence with lastConfirmed := now }

/-- `KnowledgeEntry.applyDecay` (lines 3785-3799): confidence drops by
`KNOWLEDGE_DECAY_RATE · (Δt/1000)` scaled `1.2 / 1.0 / 0.8` for
low / mid / high, clamped from below at `MINIMUM_KNOWLEDGE_CONFIDENCE`. -/
def KnowledgeEntry.applyDecay (k : KnowledgeEntry) (currentTime : ℤ) :
    KnowledgeEntry :=
  let timeSinceLastUse : ℚ := ((currentTime - k.lastUsed : ℤ) : ℚ)
  let decayFactor : ℚ := Config.KNOWLEDGE_DECAY_RATE * (timeSinceLastUse / 1000)
  let levelMultiplier : ℚ :=
    match k.level with
    | .low => 12/10
    | .mid => 1
    | .high => 8/10
  { k with
    confidence := max Config.MINIMUM_KNOWLEDGE_CONFIDENCE
      (k.confidence - decayFactor * levelMultiplier) }

/-- Average of per-environment transfer success rates
(`success/total` summed, divided by the number of environments). -/
def avgTransferSuccessRate (ts : List (Nat × TransferRecord)) : ℚ :=
  (ts.map (fun r => (r.2.success : ℚ) / (r.2.total : ℚ))).sum / (ts.length : ℚ)

/-- `KnowledgeEntry.isApplicableInEnvironment` (lines 3804-3825): high-level
knowledge applies everywhere; anything applies in an environment it is
recorded for; mid-level knowledge additionally applies when untested or when
its average transfer success rate reaches `VALIDATION_THRESHOLD`; low-level
knowledge applies nowhere else. -/
def KnowledgeEntry.isApplicableInEnvironment (k : KnowledgeEntry)
    (environmentId : Nat) : Bool :=
  if k.level = .high then true
  else if environmentId ∈ k.environmentIds then true
  else if k.level = .mid then
    if k.transferSuccess = [] then true
    else decide (Config.VALIDATION_THRESHOLD ≤ avgTransferSuccessRate k.transferSuccess)
  else false

/-- `CrossRealitySystem.patternsMatch` (lines 2828-2849): same type, same
number of conditions, and every condition of the first pattern has a
property/operator counterpart in the second. -/
def patternsMatch (p1 p2 : KPattern) : Bool :=
  if p1.type ≠ p2.type then false
  else if p1.conditions.length ≠ p2.conditions.length then false
  else p1.conditions.all fun c1 =>
    p2.conditions.any fun c2 =>
      c2.property = c1.property ∧ c2.operator = c1.operator

/-- The minimum confidence occurring in a nonempty tier (seeded with the
head's confidence, as the JS ascending sort puts a minimal element first). -/
def minConfidence (e0 : KnowledgeEntry) (rest : List KnowledgeEntry) : ℚ :=
  rest.foldl (fun m e => min m e.confidence) e0.confidence

/-- The capacity-eviction step shared by the three `add*LevelKnowledge`
methods: `Array.from(tier.entries()).sort((a,b) => a.confidence -
b.confidence)[0]` is deleted.  The JS sort is stable and `Map` iteration is
insertion-ordered, so the deleted entry is the first (in insertion order)
entry of minimal confidence. -/
def evictWeakest : List KnowledgeEntry → List KnowledgeEntry
  | [] => []
  | e0 :: rest =>
    (e0 :: rest).eraseP fun e => decide (e.confidence = minConfidence e0 rest)

/-- In-place update of the first list element satisfying `p` (the JS loops
mutate the first `Map` entry whose pattern matches, then `break`). -/
def updateFirst (p : α → Bool) (f : α → α) : List α → List α
  | [] => []
  | x :: xs => if p x then f x :: xs else x :: updateFirst p f xs

/-- `CrossRealitySystem.addLowLevelKnowledge` (lines 2787-2823): merge into
the first pattern-matching entry, else create a fresh entry, evicting the
weakest entry first when the tier is at `LOW_LEVEL_CAPACITY`. -/
def addLowLevelKnowledge (low : List KnowledgeEntry) (pattern : KPattern)
    (environmentId : Nat) (now : ℤ) : List KnowledgeEntry :=
  if low.any (fun e => patternsMatch e.pattern pattern) then
    updateFirst (fun e => patternsMatch e.pattern pattern)
      (fun e => e.addInstance (some environmentId) now) low
  else
    let newEntry := KnowledgeEntry.mk0 pattern .low (some environmentId) now
    (if low.length ≥ Config.LOW_LEVEL_CAPACITY then evictWeakest low else low)
      ++ [newEntry]

/-- Append each element of `envIds` not already present (the
`environmentIds.forEach` push loops of `addMidLevelKnowledge` /
`addHighLevelKnowledge`). -/
def pushNewEnvIds (base : List Nat) (envIds : List Nat) : List Nat :=
  envIds.foldl (fun acc e => if e ∈ acc then acc else acc ++ [e]) base

/-- Deduplicated environment ids gathered from source entries
(`[...new Set(sourceEntries.flatMap(e => e.environmentIds))]`). -/
def sourceEnvironmentIds (sourceEntries : List KnowledgeEntry) : List Nat :=
  pushNewEnvIds [] (sourceEntries.flatMap (·.environmentIds))

/-- `CrossRealitySystem.addMidLevelKnowledge` (lines 3077-3136): merge into
the first pattern-matching entry (also merging source environment ids), else
create a fresh entry carrying the source environment ids and one instance,
evicting the weakest entry first when the tier is at `MID_LEVEL_CAPACITY`. -/
def addMidLevelKnowledge (mid : List KnowledgeEntry) (pattern : KPattern)
    (sourceEntries : List KnowledgeEntry) (now : ℤ) : List KnowledgeEntry :=
  let environmentIds := sourceEnvironmentIds sourceEntries
  if mid.any (fun e => patternsMatch e.pattern pattern) then
    updateFirst (fun e => patternsMatch e.pattern pattern)
      (fun e =>
        let e1 := e.addInstance none now
        { e1 with environmentIds := pushNewEnvIds e1.environmentIds environmentIds })
      mid
  else
    let e0 := KnowledgeEntry.mk0 pattern .mid none now
    let e1 := { e0 with environmentIds := pushNewEnvIds e0.environmentIds environmentIds }
    let newEntry := e1.addInstance none now
    (if mid.length ≥ Config.MID_LEVEL_CAPACITY then evictWeakest mid else mid)
      ++ [newEntry]

/-- `CrossRealitySystem.addHighLevelKnowledge` (lines 3228-3285): merge into
the first entry of the same type marked as a universal principle, else create
a fresh entry tagged with every known environment id, evicting the weakest
entry first when the tier is at `HIGH_LEVEL_CAPACITY`.
`knownEnvironments` is `this.environments.keys()`. -/
def addHighLevelKnowledge (high : List KnowledgeEntry) (pattern : KPattern)
    (knownEnvironments : List Nat) (now : ℤ) : List KnowledgeEntry :=
  let isDup := fun (e : KnowledgeEntry) =>
    decide (e.pattern.type = pattern.type) && e.pattern.universalPrinciple
  if high.any isDup then
    updateFirst isDup
      (fun e =>
        let e1 := e.addInstance none now
        { e1 with environmentIds := pushNewEnvIds e1.environmentIds knownEnvironments })
      high
  else
    let e0 := KnowledgeEntry.mk0 pattern .high none now
    let e1 := { e0 with environmentIds := pushNewEnvIds e0.environmentIds knownEnvironments }
    let newEntry := e1.addInstance none now
    (if high.length ≥ Config.HIGH_LEVEL_CAPACITY then evictWeakest high else high)
      ++ [newEntry]

/-- Whether condition `c2` has the same property and operator as `c1`. -/
def condKeyMatches (c1 c2 : Condition) : Bool :=
  decide (c2.property = c1.property) && decide (c2.operator = c1.operator)

/-- The generalized value for one common condition in
`CrossRealitySystem.findCommonConditions` (lines 2977-3018): numeric values
become a `[min,max]` range, booleans the majority value, other values the
common value or `null` on disagreement. -/
def generalizeConditionValues (c : Condition) (values : List CVal) : Condition :=
  match values with
  | [] =>
    { property := c.property, operator := c.operator, value := none,
      valueRange := none, generalized := true }
  | v0 :: _ =>
    match v0 with
    | .num _ =>
      let nums := values.filterMap fun v =>
        match v with
        | .num q => some q
        | _ => none
      let lo := nums.foldl min (nums.headD 0)
      let hi := nums.foldl max (nums.headD 0)
      { property := c.property, operator := c.operator, value := none,
        valueRange := some (lo, hi), generalized := true }
    | .bool _ =>
      let trueCount := (values.filter (· = CVal.bool true)).length
      { property := c.property, operator := c.operator,
        value := some (.bool (2 * trueCount > values.length)),
        valueRange := none, generalized := true }
    | _ =>
      let allSame := values.all (· = v0)
      { property := c.property, operator := c.operator,
        value := if allSame then some v0 else some .null,
        valueRange := none, generalized := true }

/-- `CrossRealitySystem.findCommonConditions` (lines 2958-3018): keep the
first entry's conditions whose property/operator pair appears in every entry,
then generalize each condition's values across the entries. -/
def findCommonConditions (entries : List KnowledgeEntry) : List Condition :=
  match entries with
  | [] => []
  | e0 :: _ =>
    let commonConditions := e0.pattern.conditions.filter fun c =>
      entries.all fun e => e.pattern.conditions.any (condKeyMatches c)
    commonConditions.map fun c =>
      let values := entries.filterMap fun e =>
        (e.pattern.conditions.find? (condKeyMatches c)).bind (·.value)
      generalizeConditionValues c values

/-- Outcome property names in order of first appearance across entries
(the `Set` built by `aggregateOutcomes`, lines 3028-3033). -/
def outcomeProperties (entries : List KnowledgeEntry) : List String :=
  entries.foldl
    (fun acc e => e.pattern.outcome.foldl
      (fun acc2 kv => if kv.1 ∈ acc2 then acc2 else acc2 ++ [kv.1]) acc)
    []

/-- Aggregation of one outcome property (`aggregateOutcomes`, lines
3036-3069): numeric values average, booleans take the majority, anything else
takes the most frequent value (first encountered wins ties, scanning counts
in order of first appearance). -/
def aggregateOutcomeValue (values : List CVal) : CVal :=
  match values with
  | [] => .null
  | v0 :: _ =>
    match v0 with
    | .num _ =>
      let nums := values.filterMap fun v =>
        match v with
        | .num q => some q
        | _ => none
      .num (nums.sum / (values.length : ℚ))
    | .bool _ =>
      let trueCount := (values.filter (· = CVal.bool true)).length
      .bool (2 * trueCount > values.length)
    | _ =>
      let counts : List (CVal × Nat) := values.foldl
        (fun acc v =>
          if acc.any (fun p => p.1 = v) then
            acc.map fun p => if p.1 = v then (p.1, p.2 + 1) else p
          else acc ++ [(v, 1)])
        []
      (counts.foldl
        (fun best p => if p.2 > best.2 then p else best)
        (v0, 0)).1

/-- `CrossRealitySystem.aggregateOutcomes` (lines 3024-3072). -/
def aggregateOutcomes (entries : List KnowledgeEntry) : List (String × CVal) :=
  (outcomeProperties entries).filterMap fun property =>
    let values := entries.filterMap fun e =>
      (e.pattern.outcome.find? (fun kv => kv.1 = property)).map (·.2)
    if values.isEmpty then none
    else some (property, aggregateOutcomeValue values)

/-- One step of grouping tier entries by `pattern.type`: append the entry to
its type's group, or open a new group at the back. -/
def groupStep (acc : List (String × List KnowledgeEntry)) (e : KnowledgeEntry) :
    List (String × List KnowledgeEntry) :=
  if acc.any (fun g => g.1 = e.pattern.type) then
    acc.map fun g =>
      if g.1 = e.pattern.type then (g.1, g.2 ++ [e]) else g
  else acc ++ [(e.pattern.type, [e])]

/-- Grouping of tier entries by `pattern.type` in insertion order (the
`knowledgeByType` `Map` of `generalizeLowToMid`, lines 2915-2923). -/
def groupByType (entries : List KnowledgeEntry) :
    List (String × List KnowledgeEntry) :=
  entries.foldl groupStep []

/-- The mid-level candidate patterns produced by one pass of
`CrossRealitySystem.generalizeLowToMid` (lines 2914-2953): for each pattern
type with at least `ABSTRACTION_INSTANCE_THRESHOLD` low-level entries, of
which at least 3 reach `ABSTRACTION_CONFIDENCE_THRESHOLD`, and whose
confident entries share at least one common condition, emit one generalized
mid-level pattern. -/
def midCandidates (low : List KnowledgeEntry) : List (KPattern × List KnowledgeEntry) :=
  (groupByType low).filterMap fun g =>
    if g.2.length < Config.ABSTRACTION_INSTANCE_THRESHOLD then none
    else
      let confidentEntries := g.2.filter fun e =>
        decide (Config.ABSTRACTION_CONFIDENCE_THRESHOLD ≤ e.confidence)
      if confidentEntries.length < 3 then none
      else
        let commonConditions := findCommonConditions confidentEntries
        if commonConditions.length = 0 then none
        else
          some ({ type := g.1, conditions := commonConditions,
                  outcome := aggregateOutcomes confidentEntries,
                  universalPrinciple := false }, confidentEntries)

/-- One agent's three-tier knowledge store (the `agentKnowledge` maps,
modelled as insertion-ordered lists). -/
structure AgentKnowledge where
  low : List KnowledgeEntry
  mid : List KnowledgeEntry
  high : List KnowledgeEntry
deriving DecidableEq

/-- `CrossRealitySystem.generalizeLowToMid` (lines 2914-2953) as a function
on the tier lists: every candidate pattern is fed to
`addMidLevelKnowledge`. -/
def generalizeLowToMid (ak : AgentKnowledge) (now : ℤ) : AgentKnowledge :=
  { ak with
    mid := (midCandidates ak.low).foldl
      (fun mid c => addMidLevelKnowledge mid c.1 c.2 now) ak.mid }

/-- `CrossRealitySystem.applyKnowledgeDecay` (lines 2854-2883) restricted to
one tier: decay every entry, then delete those whose confidence fell below
`MINIMUM_KNOWLEDGE_CONFIDENCE`. -/
def decayTier (tier : List KnowledgeEntry) (currentTime : ℤ) :
    List KnowledgeEntry :=
  (tier.map (·.applyDecay currentTime)).filter fun e =>
    !decide (e.confidence < Config.MINIMUM_KNOWLEDGE_CONFIDENCE)

/-- `CrossRealitySystem.applyKnowledgeDecay` (lines 2854-2883). -/
def applyKnowledgeDecay (ak : AgentKnowledge) (currentTime : ℤ) :
    AgentKnowledge :=
  { low := decayTier ak.low currentTime
    mid := decayTier ak.mid currentTime
    high := decayTier ak.high currentTime }

/-- `CrossRealitySystem.adaptKnowledge` (lines 4184-4221): on a sufficiently
dissimilar environment transition, low- and mid-level entries that are not
applicable in the new environment are discounted by `(1 − aF·0.7)` resp.
`(1 − aF·0.4)`, and every high-level entry by `(1 − aF·0.1)`, where
`aF = max(0.1, 1 − similarity)`. -/
def adaptKnowledge (ak : AgentKnowledge) (newEnvironmentId : Nat)
    (similarity : ℚ) : AgentKnowledge :=
  let adaptationFactor := max (1/10) (1 - similarity)
  { low := ak.low.map fun k =>
      if !(k.isApplicableInEnvironment newEnvironmentId) then
        { k with confidence := k.confidence * (1 - adaptationFactor * (7/10)) }
      else k
    mid := ak.mid.map fun k =>
      if !(k.isApplicableInEnvironment newEnvironmentId) then
        { k with confidence := k.confidence * (1 - adaptationFactor * (4/10)) }
      else k
    high := ak.high.map fun k =>
      { k with confidence := k.confidence * (1 - adaptationFactor * (1/10)) } }

/-- The knowledge-confidence effect of `CrossRealitySystem.updateEnvironment`
(lines 4021-4045): `adaptKnowledge` runs exactly when the detected
environment id changed and the computed similarity is below
`ENVIRONMENT_TRANSITION_THRESHOLD`; otherwise confidences are untouched
(the rest of `updateEnvironment` only updates environment profiles). -/
def updateEnvironmentKnowledge (ak : AgentKnowledge)
    (currentEnvironmentId newEnvironmentId : Nat) (similarity : ℚ) :
    AgentKnowledge :=
  if newEnvironmentId ≠ currentEnvironmentId ∧
      similarity < Config.ENVIRONMENT_TRANSITION_THRESHOLD then
    adaptKnowledge ak newEnvironmentId similarity
  else ak

/-! ## Memory-extension module (`EpisodicMemory` / `SemanticMemory` /
`MemoryManager` and the enhanced memory / decision systems) -/

/-- An episodic memory record (`EpisodicMemory` class).  The random string
`id` is replaced by a numeric tag; `context` is reduced to the fields the
embedded operations read. -/
structure EpisodicMem where
  id : Nat
  timestamp : ℤ
  entityId : Nat
  entityType : Nat
  posX : ℚ
  posY : ℚ
  importance : ℚ
  fidelity : ℚ
  emotionalImpact : ℚ
deriving DecidableEq

/-- The neighbor test of `SemanticMemory._extractProximityPattern` (lines
221-225): same entity type as the target, timestamps within 10 ticks,
Euclidean distance below 15 (squared form). -/
def proximalNeighborTest (a b : EpisodicMem) (targetType : Nat) : Bool :=
  decide (b.entityType = targetType) &&
  decide ((b.timestamp - a.timestamp).natAbs < 10) &&
  decide ((b.posX - a.posX) ^ 2 + (b.posY - a.posY) ^ 2 < 225)

/-- Number of records in `memories` having a *distinct* proximal neighbor of
the target type inside `memories` (the `proximalCount` loop of
`_extractProximityPattern`; JS object identity `m !== memory` is modelled by
index distinctness). -/
def proximalCount (memories : List EpisodicMem) (targetType : Nat) : Nat :=
  (memories.enum.filter fun ia =>
    memories.enum.any fun jb =>
      decide (jb.1 ≠ ia.1) && proximalNeighborTest ia.2 jb.2 targetType).length

/-- `SemanticMemory._extractProximityPattern` (lines 217-243): `some c`
means a pattern with confidence `c` is emitted (`addPattern` is called),
`none` that nothing is emitted. -/
def extractProximityPattern (memories : List EpisodicMem) (targetType : Nat) :
    Option ℚ :=
  let confidence : ℚ := (proximalCount memories targetType : ℚ) /
    (memories.length : ℚ)
  if confidence > 3/10 then some confidence else none

/-- The `resource_obstacle_proximity` branch of
`SemanticMemory.extractResourcePatterns` (lines 159-164): filter to
resource-kind records (entityType 0), require at least 3, then run the
proximity extraction against target type 1 (obstacles). -/
def extractResourceObstacleProximity (memories : List EpisodicMem) :
    Option ℚ :=
  let resources := memories.filter fun m => decide (m.entityType = 0)
  if resources.length < 3 then none
  else extractProximityPattern resources 1

/-- Second definition, following the specification's words (for comparison
with `extractResourceObstacleProximity`): the fraction of resource-kind
records that have an obstacle-kind (entityType 1) neighbor *among all
records* within 15 distance units and a 10-tick window. -/
def specResourceObstacleFraction (memories : List EpisodicMem) : ℚ :=
  let resources := memories.filter fun m => decide (m.entityType = 0)
  ((resources.filter fun a =>
      memories.any fun b => proximalNeighborTest a b 1).length : ℚ) /
    (resources.length : ℚ)

/-- One slot of the fixed-size short-term ring
(`EnhancedMemory.shortTerm*` component arrays). -/
structure STSlot where
  entityId : Nat
  entityType : Nat
  posX : ℚ
  posY : ℚ
  timestamp : ℤ
  importance : ℚ
  fidelity : ℚ
deriving DecidableEq

/-- One agent's short-term ring buffer state. -/
structure ShortTermMemory where
  capacity : Nat
  index : Nat
  slots : List STSlot
deriving DecidableEq

/-- The short term buffer as set up by
`MemoryManager.initializeAgentMemory` (lines 332-354): capacity 10, write
index 0, ten zeroed slots with fidelity 1. -/
def initShortTerm : ShortTermMemory :=
  { capacity := 10
    index := 0
    slots := List.replicate 10
      { entityId := 0, entityType := 0, posX := 0, posY := 0,
        timestamp := 0, importance := 0, fidelity := 1 } }

/-- A perception event handed to `recordEpisodicMemory`. -/
structure MemEvent where
  entityId : Nat
  entityType : Nat
  posX : ℚ
  posY : ℚ
  importance : ℚ
deriving DecidableEq

/-- Minimal semantic pattern record (`type` and `confidence` are all the
relevant query paths read). -/
structure SemPattern where
  type : String
  confidence : ℚ
deriving DecidableEq

/-- Association-list lookup (JS `Map.get`; `none` is `undefined`). -/
def lookupAssoc (l : List (Nat × α)) (k : Nat) : Option α :=
  (l.find? fun p => decide (p.1 = k)).map (·.2)

/-- Association-list store (JS `Map.set`): overwrite in place or append. -/
def setAssoc (l : List (Nat × α)) (k : Nat) (v : α) : List (Nat × α) :=
  if l.any fun p => decide (p.1 = k) then
    l.map fun p => if p.1 = k then (k, v) else p
  else l ++ [(k, v)]

/-- The `MemoryManager` per-run state, restricted to one agent's component
data plus the manager's id-keyed maps. -/
structure MMState where
  shortTerm : ShortTermMemory
  globalFidelity : ℚ
  episodicQueue : List (Nat × List EpisodicMem)
  longTermMemory : List (Nat × List EpisodicMem)
  semanticCache : List (Nat × List SemPattern)
deriving DecidableEq

/-- State of a freshly initialized agent/manager: empty maps, fidelity 1
(`MemoryManager.initializeAgentMemory` plus the manager constructor).
The semantic cache holds the empty `SemanticMemory` created at
initialization. -/
def initMMState (memoryId : Nat) : MMState :=
  { shortTerm := initShortTerm
    globalFidelity := 1
    episodicQueue := []
    longTermMemory := []
    semanticCache := [(memoryId, [])] }

/-- `MemoryManager.recordEpisodicMemory` (lines 363-404): boost importance
by 0.2 at emotional extremes, overwrite the current short-term slot
unconditionally, advance the ring index mod capacity, and append a full
episodic record to the agent's episodic queue.  `emotionalState` is
`CognitiveState[agent]?.emotionalState || null` (`none` = null, which the JS
comparison `null < 30` lets through the boost branch); the long-term memory
map is not touched. -/
def recordEpisodicMemory (st : MMState) (memoryId : Nat) (ev : MemEvent)
    (time : ℤ) (emotionalState : Option ℚ) (freshId : Nat) : MMState :=
  let emotionalBoost : ℚ :=
    match emotionalState with
    | some es => if es > 70 ∨ es < 30 then 2/10 else 0
    | none => 2/10
  let importance := min 1 (ev.importance + emotionalBoost)
  let slot : STSlot :=
    { entityId := ev.entityId, entityType := ev.entityType,
      posX := ev.posX, posY := ev.posY, timestamp := time,
      importance := importance, fidelity := st.globalFidelity }
  let shortTerm :=
    { st.shortTerm with
      slots := st.shortTerm.slots.set st.shortTerm.index slot
      index := (st.shortTerm.index + 1) % st.shortTerm.capacity }
  let episodicMemory : EpisodicMem :=
    { id := freshId, timestamp := time, entityId := ev.entityId,
      entityType := ev.entityType, posX := ev.posX, posY := ev.posY,
      importance := min 1 (max 0 importance),
      fidelity := min 1 (max 0 st.globalFidelity),
      emotionalImpact := emotionalState.getD 50 }
  let episodicQueue :=
    match lookupAssoc st.episodicQueue memoryId with
    | some l => setAssoc st.episodicQueue memoryId (l ++ [episodicMemory])
    | none => st.episodicQueue ++ [(memoryId, [episodicMemory])]
  { st with shortTerm := shortTerm, episodicQueue := episodicQueue }

/-- `MemoryManager.getSemanticMemory` (lines 455-457) followed by the
pattern read: a missing cache entry yields a fresh empty `SemanticMemory`,
so the patterns list is empty rather than an error. -/
def getSemanticPatterns (st : MMState) (memoryId : Nat) : List SemPattern :=
  (lookupAssoc st.semanticCache memoryId).getD []

/-- `MemoryManager.findRelevantPatterns` (lines 459-467), with no context
type filter: empty for an uninitialized agent, else the
confidence-thresholded patterns sorted by descending confidence. -/
def findRelevantPatterns (st : MMState) (memoryId : Nat) : List SemPattern :=
  let patterns := getSemanticPatterns st memoryId
  if patterns.isEmpty then []
  else (patterns.filter fun p => decide ((7:ℚ)/10 ≤ p.confidence)).mergeSort
    fun a b => decide (b.confidence ≤ a.confidence)

/-- The `emotionalMemories` step of the enhanced decision system (lines
753-754): `memoryManager.longTermMemory.get(memoryId).filter(...)` with *no*
default for a missing entry — `none` models the `TypeError` thrown by
calling `.filter` on `undefined`. -/
def decisionEmotionalMemories (st : MMState) (memoryId : Nat)
    (emotionalState : ℚ) : Option (List EpisodicMem) :=
  (lookupAssoc st.longTermMemory memoryId).map fun l =>
    l.filter fun m => decide (|m.emotionalImpact - emotionalState| < 10)

/-- `MemoryManager.retryOperation` (lines 546-556), as a loop over the
remaining attempts (`fuel = retries - attempt`): run the operation; after a
non-final failure wait `RETRY_DELAY * (attempt + 1)` (delays are collected
in the returned list); the final failure is rethrown (`Except.error`).  A
zero-fuel fallthrough returns `undefined` (modelled as `.ok ()`), matching
the JS loop exiting without returning when `retries = 0`. -/
def retryLoop (op : Nat → Except String Unit) (retries attempt : Nat) :
    Nat → Except String Unit × List Nat
  | 0 => (.ok (), [])
  | fuel + 1 =>
    match op attempt with
    | .ok a => (.ok a, [])
    | .error e =>
      if attempt = retries - 1 then (.error e, [])
      else
        let r := retryLoop op retries (attempt + 1) fuel
        (r.1, Config.RETRY_DELAY * (attempt + 1) :: r.2)

/-- `MemoryManager.retryOperation` with the default retry count
(`MAX_RETRIES = 3`). -/
def retryOperation (op : Nat → Except String Unit) :
    Except String Unit × List Nat :=
  retryLoop op Config.MAX_RETRIES 0 Config.MAX_RETRIES

/-- Fueled chunking step (`fuel` is at least the list length on entry). -/
def chunkGo (n : Nat) : Nat → List α → List (List α)
  | 0, _ => []
  | _, [] => []
  | fuel + 1, x :: xs => (x :: xs.take (n - 1)) :: chunkGo n fuel (xs.drop (n - 1))

/-- Split a list into chunks of `n` (the `BATCH_SIZE` slicing loop of
`syncEpisodicMemories`, lines 424-427). -/
def chunkList (n : Nat) (l : List α) : List (List α) :=
  chunkGo n l.length l

/-- Post every batch through `retryOperation`, stopping at (and rethrowing)
the first exhausted failure. -/
def syncBatches (post : List EpisodicMem → Except String Unit) :
    List (List EpisodicMem) → Except String Unit
  | [] => .ok ()
  | b :: bs =>
    match (retryOperation fun _ => post b).1 with
    | .ok _ => syncBatches post bs
    | .error e => .error e

/-- `MemoryManager.syncEpisodicMemories` (lines 417-438), restricted to one
memory id: sort by descending importance, batch, send each batch through
`retryOperation`, and only on success clear the queue
(`this.episodicQueue.set(memoryId, [])`).  A rethrown failure leaves the
queue untouched and propagates (`Except.error`). -/
def syncEpisodicOne (post : List EpisodicMem → Except String Unit)
    (memories : List EpisodicMem) : Except String Unit × List EpisodicMem :=
  if memories.length = 0 then (.ok (), memories)
  else
    let sorted := memories.mergeSort fun a b => decide (b.importance ≤ a.importance)
    match syncBatches post (chunkList Config.BATCH_SIZE sorted) with
    | .ok _ => (.ok (), [])
    | .error e => (.error e, memories)

/-- Iterated `recordEpisodicMemory` (one fixed agent, one event per call). -/
def recordMany (st : MMState) (memoryId : Nat) (evs : List MemEvent)
    (time : ℤ) (emotionalState : Option ℚ) : MMState :=
  evs.foldl (fun s ev => recordEpisodicMemory s memoryId ev time emotionalState 0) st

/-- The exact (unclamped) confidence reduction computed by
`KnowledgeEntry.applyDecay`:
`KNOWLEDGE_DECAY_RATE · (Δt/1000) · levelMultiplier`. -/
def decayAmount (k : KnowledgeEntry) (currentTime : ℤ) : ℚ :=
  Config.KNOWLEDGE_DECAY_RATE * (((currentTime - k.lastUsed : ℤ) : ℚ) / 1000) *
    (match k.level with
     | .low => 12/10
     | .mid => 1
     | .high => 8/10)

/-- Sample knowledge entry with a trivial pattern (used to instantiate
theorems at concrete inputs). -/
def mkEntry (t : String) (lvl : KLevel) (conf : ℚ) (envs : List Nat)
    (ts : List (Nat × TransferRecord)) : KnowledgeEntry :=
  { pattern := { type := t, conditions := [], outcome := [],
                 universalPrinciple := false }
    level := lvl
    confidence := conf
    instances := 0
    environmentIds := envs
    applicationCount := 0
    successCount := 0
    transferSuccess := ts
    created := 0
    lastConfirmed := 0
    lastUsed := 0 }

/-- Sample knowledge entry with an explicit pattern (used to instantiate
theorems at concrete inputs). -/
def mkEntryP (p : KPattern) (lvl : KLevel) (conf : ℚ) (envs : List Nat) :
    KnowledgeEntry :=
  { pattern := p
    level := lvl
    confidence := conf
    instances := 0
    environmentIds := envs
    applicationCount := 0
    successCount := 0
    transferSuccess := []
    created := 0
    lastConfirmed := 0
    lastUsed := 0 }

/-! ## Theorems -/

theorem applyDecay_confidence (k : KnowledgeEntry) (t : ℤ) :
    (k.applyDecay t).confidence =
      max Config.MINIMUM_KNOWLEDGE_CONFIDENCE (k.confidence - decayAmount k t) := by
  cases k with
  | mk pattern level conf inst envs appc succ ts cr lc lu =>
    cases level <;>
      simp [KnowledgeEntry.applyDecay, decayAmount, mul_assoc]

theorem decayAmount_nonneg (k : KnowledgeEntry) (t : ℤ) (h : k.lastUsed ≤ t) :
    0 ≤ decayAmount k t := by
  have hdt : (0:ℚ) ≤ ((t - k.lastUsed : ℤ) : ℚ) := by
    have : (0:ℤ) ≤ t - k.lastUsed := by omega
    exact_mod_cast this
  unfold decayAmount Config.KNOWLEDGE_DECAY_RATE
  cases k.level <;> positivity

/-- C10: `applyDecay` clamps the decayed confidence at the forgetting floor
`MINIMUM_KNOWLEDGE_CONFIDENCE = 0.2`, so its result is always at least 0.2;
consequently the pruning branch of `applyKnowledgeDecay` that deletes
entries whose post-decay confidence is below 0.2 never fires, and
`applyKnowledgeDecay` is exactly the per-entry decay map on all three
tiers. -/
theorem decay_floor_prune_unreachable :
    (∀ (k : KnowledgeEntry) (t : ℤ),
      Config.MINIMUM_KNOWLEDGE_CONFIDENCE ≤ (k.applyDecay t).confidence) ∧
    (∀ (ak : AgentKnowledge) (t : ℤ),
      applyKnowledgeDecay ak t =
        { low := ak.low.map (·.applyDecay t)
          mid := ak.mid.map (·.applyDecay t)
          high := ak.high.map (·.applyDecay t) }) := by
  have hfloor : ∀ (k : KnowledgeEntry) (t : ℤ),
      Config.MINIMUM_KNOWLEDGE_CONFIDENCE ≤ (k.applyDecay t).confidence := by
    intro k t
    rw [applyDecay_confidence]
    exact le_max_left _ _
  refine ⟨hfloor, fun ak t => ?_⟩
  have htier : ∀ (tier : List KnowledgeEntry),
      decayTier tier t = tier.map (·.applyDecay t) := by
    intro tier
    unfold decayTier
    rw [List.filter_eq_self]
    intro a ha
    rcases List.mem_map.mp ha with ⟨b, _, rfl⟩
    simp only [Bool.not_eq_true']
    rw [decide_eq_false_iff_not, not_lt]
    exact hfloor b t
  simp [applyKnowledgeDecay, htier]

/-- C8 counterexample: `applyDecay` is *not* a pure reduction.  An entry with
confidence 0.1 (reachable, e.g., after `adaptKnowledge` discounting) is
*raised* to the 0.2 floor by `applyDecay` even with zero elapsed time,
whereas an exact reduction by `0.05·Δt·multiplier = 0` would leave it at
0.1. -/
theorem applyDecay_not_exact_reduction :
    ((mkEntry "t" KLevel.low (1/10) [] []).applyDecay 0).confidence = 1/5 ∧
    ¬((mkEntry "t" KLevel.low (1/10) [] []).applyDecay 0).confidence =
      (mkEntry "t" KLevel.low (1/10) [] []).confidence - 0 ∧
    (mkEntry "t" KLevel.low (1/10) [] []).confidence <
      ((mkEntry "t" KLevel.low (1/10) [] []).applyDecay 0).confidence := by
  have hd : decayAmount (mkEntry "t" KLevel.low (1/10) [] []) 0 = 0 := by
    simp [decayAmount, mkEntry]
  have hc : ((mkEntry "t" KLevel.low (1/10) [] []).applyDecay 0).confidence = 1/5 := by
    rw [applyDecay_confidence, hd]
    rw [max_eq_left (by norm_num [mkEntry, Config.MINIMUM_KNOWLEDGE_CONFIDENCE])]
    norm_num [Config.MINIMUM_KNOWLEDGE_CONFIDENCE]
  refine ⟨hc, ?_, ?_⟩ <;> rw [hc] <;> norm_num [mkEntry]

/-- C8 (amended): `applyDecay` sets the confidence to
`max 0.2 (confidence − 0.05·(Δt/1000)·m)` with `m = 1.2/1.0/0.8` for
low/mid/high.  The reduction is exact whenever its result stays at or above
the floor `MINIMUM_KNOWLEDGE_CONFIDENCE = 0.2`; the result never drops below
the floor; and for entries at or above the floor (with nonnegative elapsed
time) the confidence never increases. -/
theorem applyDecay_clamped_reduction (k : KnowledgeEntry) (t : ℤ)
    (hle : k.lastUsed ≤ t) :
    (Config.MINIMUM_KNOWLEDGE_CONFIDENCE ≤ k.confidence - decayAmount k t →
      (k.applyDecay t).confidence = k.confidence - decayAmount k t) ∧
    Config.MINIMUM_KNOWLEDGE_CONFIDENCE ≤ (k.applyDecay t).confidence ∧
    (Config.MINIMUM_KNOWLEDGE_CONFIDENCE ≤ k.confidence →
      (k.applyDecay t).confidence ≤ k.confidence) := by
  rw [applyDecay_confidence]
  refine ⟨fun h => max_eq_right h, le_max_left _ _, fun h => ?_⟩
  have hd := decayAmount_nonneg k t hle
  exact max_le h (by linarith)

/-- Witness for `applyDecay_clamped_reduction`: a mid-level entry with
confidence 0.5 decayed over 1000 time units loses exactly
`0.05 · 1 · 1.0 = 0.05`. -/
theorem applyDecay_clamped_reduction_witness :
    ((mkEntry "t" KLevel.mid (1/2) [] []).applyDecay 1000).confidence = 45/100 := by
  have hd : decayAmount (mkEntry "t" KLevel.mid (1/2) [] []) 1000 = 1/20 := by
    norm_num [decayAmount, mkEntry, Config.KNOWLEDGE_DECAY_RATE]
  have h := (applyDecay_clamped_reduction (mkEntry "t" KLevel.mid (1/2) [] [])
    1000 (by norm_num [mkEntry])).1
    (by rw [hd]; norm_num [mkEntry, Config.MINIMUM_KNOWLEDGE_CONFIDENCE])
  rw [h, hd]
  norm_num [mkEntry]

/-- C5: tier applicability.  High-level entries are applicable in every
environment; low-level entries exactly in the environments of their
environment set; mid-level entries when the environment is in their set, or
they have no transfer-success records, or their average per-environment
transfer success rate reaches `VALIDATION_THRESHOLD = 0.7` (the hypothesis
restricts to well-formed transfer records, which `recordApplication` always
produces with `total ≥ 1`). -/
theorem tier_applicability (k : KnowledgeEntry) (envId : Nat) :
    (k.level = .high → k.isApplicableInEnvironment envId = true) ∧
    (k.level = .low →
      (k.isApplicableInEnvironment envId = true ↔ envId ∈ k.environmentIds)) ∧
    (k.level = .mid → (∀ r ∈ k.transferSuccess, r.2.total ≠ 0) →
      (k.isApplicableInEnvironment envId = true ↔
        envId ∈ k.environmentIds ∨ k.transferSuccess = [] ∨
          Config.VALIDATION_THRESHOLD ≤ avgTransferSuccessRate k.transferSuccess)) := by
  refine ⟨fun hh => ?_, fun hl => ?_, fun hm _ => ?_⟩
  · simp [KnowledgeEntry.isApplicableInEnvironment, hh]
  · unfold KnowledgeEntry.isApplicableInEnvironment
    rw [hl]
    by_cases hmem : envId ∈ k.environmentIds <;> simp [hmem]
  · unfold KnowledgeEntry.isApplicableInEnvironment
    rw [hm]
    by_cases hmem : envId ∈ k.environmentIds
    · simp [hmem]
    · by_cases hts : k.transferSuccess = [] <;> simp [hmem, hts]

/-- Witness for `tier_applicability`: a mid-level entry tested only in
environment 1 with transfer success 7/10 is applicable in the unrelated
environment 5 (its average rate meets the 0.7 threshold). -/
theorem tier_applicability_witness :
    (mkEntry "t" KLevel.mid (1/2) [] [(1, ⟨7, 10⟩)]).isApplicableInEnvironment 5 = true := by
  refine ((tier_applicability (mkEntry "t" KLevel.mid (1/2) [] [(1, ⟨7, 10⟩)]) 5).2.2
    (by simp [mkEntry]) (by simp [mkEntry])).mpr (Or.inr (Or.inr ?_))
  norm_num [mkEntry, avgTransferSuccessRate, Config.VALIDATION_THRESHOLD]

theorem recordMany_shortTerm (memoryId : Nat) (time : ℤ)
    (emotionalState : Option ℚ) (evs : List MemEvent) :
    ∀ st : MMState, st.shortTerm.capacity = 10 → st.shortTerm.index < 10 →
      (recordMany st memoryId evs time emotionalState).shortTerm.capacity = 10 ∧
      (recordMany st memoryId evs time emotionalState).shortTerm.index =
        (st.shortTerm.index + evs.length) % 10 ∧
      (recordMany st memoryId evs time emotionalState).shortTerm.slots.length =
        st.shortTerm.slots.length := by
  induction evs with
  | nil =>
    intro st hcap hidx
    refine ⟨hcap, ?_, rfl⟩
    simp [recordMany, Nat.mod_eq_of_lt hidx]
  | cons ev evs ih =>
    intro st hcap hidx
    have hstep : recordMany st memoryId (ev :: evs) time emotionalState =
        recordMany (recordEpisodicMemory st memoryId ev time emotionalState 0)
          memoryId evs time emotionalState := by
      simp [recordMany]
    set st' := recordEpisodicMemory st memoryId ev time emotionalState 0 with hst'
    have hcap' : st'.shortTerm.capacity = 10 := by
      simp [hst', recordEpisodicMemory, hcap]
    have hidx' : st'.shortTerm.index = (st.shortTerm.index + 1) % 10 := by
      simp [hst', recordEpisodicMemory, hcap]
    have hlen' : st'.shortTerm.slots.length = st.shortTerm.slots.length := by
      simp [hst', recordEpisodicMemory, List.length_set]
    obtain ⟨h1, h2, h3⟩ := ih st' hcap' (by rw [hidx']; exact Nat.mod_lt _ (by norm_num))
    refine ⟨by rw [hstep]; exact h1, ?_, by rw [hstep]; exact h3.trans hlen'⟩
    rw [hstep, h2, hidx', Nat.mod_add_mod]
    simp only [List.length_cons]
    omega

/-- C9: the short-term ring buffer.  Starting from the freshly initialized
agent memory (capacity 10, write index 0, ten slots), after any sequence of
`recordEpisodicMemory` calls the slot count is still exactly 10, the write
index equals (number of records) mod 10 and so always stays in 0..9, and
after exactly 10 records the next write targets slot 0 (not slot 10),
overwriting the oldest slot. -/
theorem shortTerm_ring_buffer (memoryId : Nat) (time : ℤ)
    (emotionalState : Option ℚ) (evs : List MemEvent) :
    (recordMany (initMMState memoryId) memoryId evs time emotionalState).shortTerm.slots.length = 10 ∧
    (recordMany (initMMState memoryId) memoryId evs time emotionalState).shortTerm.index =
      evs.length % 10 ∧
    (recordMany (initMMState memoryId) memoryId evs time emotionalState).shortTerm.index < 10 ∧
    (evs.length = 10 →
      (recordMany (initMMState memoryId) memoryId evs time emotionalState).shortTerm.index = 0) := by
  obtain ⟨h1, h2, h3⟩ := recordMany_shortTerm memoryId time emotionalState evs
    (initMMState memoryId) (by simp [initMMState, initShortTerm])
    (by simp [initMMState, initShortTerm])
  have hidx0 : (initMMState memoryId).shortTerm.index = 0 := by
    simp [initMMState, initShortTerm]
  have hlen0 : (initMMState memoryId).shortTerm.slots.length = 10 := by
    simp [initMMState, initShortTerm]
  rw [hidx0] at h2
  rw [hlen0] at h3
  simp only [Nat.zero_add] at h2
  refine ⟨h3, h2, ?_, fun h10 => ?_⟩
  · rw [h2]; exact Nat.mod_lt _ (by norm_num)
  · rw [h2, h10]

/-- Witness for `shortTerm_ring_buffer`: after ten records the write index
has wrapped back to slot 0. -/
theorem shortTerm_ring_buffer_witness :
    (recordMany (initMMState 7) 7
      (List.replicate 10 { entityId := 5, entityType := 0, posX := 1, posY := 2,
                           importance := 1/2 }) 3 none).shortTerm.index = 0 :=
  (shortTerm_ring_buffer 7 3 none _).2.2.2 (by simp)

/-- C4 counterexample: the high-tier loop of `adaptKnowledge` has *no*
applicability guard.  A high-level entry is applicable in every environment
(including the new environment 3), yet a 1→3 transition with similarity 0.4
multiplies its confidence by `(1 − 0.6·0.1) = 0.94`, changing 0.5 to 0.47 —
the claim (applicable entries keep their confidence unchanged) fails. -/
theorem adapt_high_tier_counterexample :
    (mkEntry "t" KLevel.high (1/2) [] []).isApplicableInEnvironment 3 = true ∧
    (updateEnvironmentKnowledge
        { low := [], mid := [], high := [mkEntry "t" KLevel.high (1/2) [] []] }
        1 3 (4/10)).high.map (·.confidence) = [47/100] ∧
    (47:ℚ)/100 ≠ 1/2 := by
  refine ⟨by simp [KnowledgeEntry.isApplicableInEnvironment, mkEntry], ?_, by norm_num⟩
  have hcond : (3 ≠ 1 ∧ (4:ℚ)/10 < Config.ENVIRONMENT_TRANSITION_THRESHOLD) :=
    ⟨by decide, by norm_num [Config.ENVIRONMENT_TRANSITION_THRESHOLD]⟩
  unfold updateEnvironmentKnowledge
  rw [if_pos hcond]
  simp only [adaptKnowledge, List.map_map, List.map_cons, List.map_nil,
    Function.comp]
  rw [max_eq_right (by norm_num : (1:ℚ)/10 ≤ 1 - 4/10)]
  norm_num [mkEntry]

/-- C4 (amended): on an environment transition with similarity below the
0.6 threshold, `adaptKnowledge` multiplies the confidence of every
*non-applicable* low-level entry by `(1 − aF·0.7)` and of every
non-applicable mid-level entry by `(1 − aF·0.4)`, with
`aF = max(0.1, 1−similarity) = 1−similarity` below the threshold; applicable
low/mid entries are unchanged; but *every* high-level entry — applicable or
not — is multiplied by `(1 − aF·0.1)`.  With similarity at or above the
threshold, or without an id change, all confidences are unchanged. -/
theorem adapt_knowledge_amended (ak : AgentKnowledge) (cur new : Nat) (sim : ℚ) :
    (sim < Config.ENVIRONMENT_TRANSITION_THRESHOLD → new ≠ cur →
      (∀ i (h : i < ak.low.length),
        (updateEnvironmentKnowledge ak cur new sim).low.get? i =
          some (if (ak.low.get ⟨i, h⟩).isApplicableInEnvironment new then
                  ak.low.get ⟨i, h⟩
                else
                  { ak.low.get ⟨i, h⟩ with
                    confidence := (ak.low.get ⟨i, h⟩).confidence *
                      (1 - (1 - sim) * (7/10)) })) ∧
      (∀ i (h : i < ak.mid.length),
        (updateEnvironmentKnowledge ak cur new sim).mid.get? i =
          some (if (ak.mid.get ⟨i, h⟩).isApplicableInEnvironment new then
                  ak.mid.get ⟨i, h⟩
                else
                  { ak.mid.get ⟨i, h⟩ with
                    confidence := (ak.mid.get ⟨i, h⟩).confidence *
                      (1 - (1 - sim) * (4/10)) })) ∧
      (∀ i (h : i < ak.high.length),
        (updateEnvironmentKnowledge ak cur new sim).high.get? i =
          some { ak.high.get ⟨i, h⟩ with
                 confidence := (ak.high.get ⟨i, h⟩).confidence *
                   (1 - (1 - sim) * (1/10)) })) ∧
    (Config.ENVIRONMENT_TRANSITION_THRESHOLD ≤ sim ∨ new = cur →
      updateEnvironmentKnowledge ak cur new sim = ak) := by
  constructor
  · intro hsim hne
    have hmax : max ((1:ℚ)/10) (1 - sim) = 1 - sim := by
      rw [Config.ENVIRONMENT_TRANSITION_THRESHOLD] at hsim
      exact max_eq_right (by linarith)
    have hcond : (new ≠ cur ∧ sim < Config.ENVIRONMENT_TRANSITION_THRESHOLD) :=
      ⟨hne, hsim⟩
    unfold updateEnvironmentKnowledge
    rw [if_pos hcond]
    unfold adaptKnowledge
    simp only [hmax]
    refine ⟨fun i h => ?_, fun i h => ?_, fun i h => ?_⟩
    · rw [List.get?_map, List.get?_eq_get h, Option.map_some']
      by_cases happ : ak.low[i].isApplicableInEnvironment new = true
      · simp [happ]
      · simp only [Bool.not_eq_true] at happ
        simp [happ]
    · rw [List.get?_map, List.get?_eq_get h, Option.map_some']
      by_cases happ : ak.mid[i].isApplicableInEnvironment new = true
      · simp [happ]
      · simp only [Bool.not_eq_true] at happ
        simp [happ]
    · rw [List.get?_map, List.get?_eq_get h, Option.map_some']
  · intro hor
    unfold updateEnvironmentKnowledge
    rw [if_neg]
    rcases hor with h | h
    · intro hc
      exact absurd hc.2 (not_lt.mpr h)
    · intro hc
      exact absurd h hc.1

/-- Witness for `adapt_knowledge_amended`: a low-level entry from
environment 1 (not applicable in environment 3) has its confidence 0.5
multiplied by `(1 − 0.6·0.7) = 0.58` on the 1→3 transition with
similarity 0.4. -/
theorem adapt_knowledge_amended_witness :
    (updateEnvironmentKnowledge
        { low := [mkEntry "t" KLevel.low (1/2) [1] []], mid := [], high := [] }
        1 3 (2/5)).low.get? 0 =
      some { mkEntry "t" KLevel.low (1/2) [1] [] with confidence := 29/100 } := by
  have h := ((adapt_knowledge_amended
      { low := [mkEntry "t" KLevel.low (1/2) [1] []], mid := [], high := [] }
      1 3 (2/5)).1
    (by norm_num [Config.ENVIRONMENT_TRANSITION_THRESHOLD]) (by decide)).1 0 (by simp)
  rw [h]
  have happ : ∀ q : ℚ,
      (mkEntry "t" KLevel.low q [1] []).isApplicableInEnvironment 3 = false := by
    intro q
    simp [KnowledgeEntry.isApplicableInEnvironment, mkEntry]
  simp only [List.get_cons_zero]
  rw [if_neg (by simp [happ])]
  simp only [mkEntry]
  norm_num

/-- C2 counterexample: when every attempt fails, the final failure of
`retryOperation` is *rethrown out of* `syncEpisodicMemories` (the result is
`Except.error`, not a swallowed/logged success), and the batch is *not*
dropped — the queue still holds it (the JS `episodicQueue.set(memoryId, [])`
line is skipped by the thrown exception). -/
theorem retry_sync_counterexample :
    (syncEpisodicOne (fun _ => Except.error "network unreachable")
      [{ id := 0, timestamp := 0, entityId := 1, entityType := 0, posX := 0,
         posY := 0, importance := 1/2, fidelity := 1, emotionalImpact := 50 }]).1 =
      Except.error "network unreachable" ∧
    (syncEpisodicOne (fun _ => Except.error "network unreachable")
      [{ id := 0, timestamp := 0, entityId := 1, entityType := 0, posX := 0,
         posY := 0, importance := 1/2, fidelity := 1, emotionalImpact := 50 }]).2 =
      [{ id := 0, timestamp := 0, entityId := 1, entityType := 0, posX := 0,
         posY := 0, importance := 1/2, fidelity := 1, emotionalImpact := 50 }] := by
  constructor <;>
    simp [syncEpisodicOne, List.mergeSort_singleton, chunkList, chunkGo,
      syncBatches, retryOperation, retryLoop, Config.MAX_RETRIES,
      Config.BATCH_SIZE]

/-- C2 (amended): `retryOperation` makes up to `MAX_RETRIES = 3` attempts,
sleeping `RETRY_DELAY · (attempt number)` after each non-final failure
(delays 1000, 2000 between the three attempts); but after the final failed
attempt the last error is *rethrown*, so a batch whose sends all fail makes
`syncEpisodicMemories` propagate the error to its caller with the batch left
in the episodic queue (not dropped). -/
theorem retry_sync_amended (op : Nat → Except String Unit) (e : Nat → String)
    (hop : ∀ i, i < Config.MAX_RETRIES → op i = .error (e i))
    (post : List EpisodicMem → Except String Unit) (err : String)
    (hpost : ∀ b, post b = .error err)
    (q : List EpisodicMem) (hq : q ≠ []) :
    retryOperation op =
      (.error (e 2), [Config.RETRY_DELAY * 1, Config.RETRY_DELAY * 2]) ∧
    syncEpisodicOne post q = (.error err, q) := by
  have h0 := hop 0 (by norm_num [Config.MAX_RETRIES])
  have h1 := hop 1 (by norm_num [Config.MAX_RETRIES])
  have h2 := hop 2 (by norm_num [Config.MAX_RETRIES])
  constructor
  · simp [retryOperation, retryLoop, h0, h1, h2, Config.MAX_RETRIES,
      Config.RETRY_DELAY]
  · have hsync : ∀ (b : List EpisodicMem) (bs : List (List EpisodicMem)),
        syncBatches post (b :: bs) = .error err := by
      intro b bs
      have hro : (retryOperation fun _ => post b).1 = .error err := by
        simp [retryOperation, retryLoop, hpost, Config.MAX_RETRIES]
      simp [syncBatches, hro]
    obtain ⟨b, bs, hbs⟩ := List.exists_cons_of_ne_nil
      (show q.mergeSort (fun a b => decide (b.importance ≤ a.importance)) ≠ [] by
        intro hnil
        have := @List.length_mergeSort EpisodicMem
          (fun a b => decide (b.importance ≤ a.importance)) q
        rw [hnil] at this
        exact hq (List.length_eq_zero.mp this.symm))
    unfold syncEpisodicOne
    rw [if_neg (by simpa using fun hlen => hq (List.length_eq_zero.mp hlen))]
    rw [hbs]
    have hchunk : chunkList Config.BATCH_SIZE (b :: bs) =
        (b :: bs.take (Config.BATCH_SIZE - 1)) ::
          chunkGo Config.BATCH_SIZE bs.length (bs.drop (Config.BATCH_SIZE - 1)) := by
      simp [chunkList, chunkGo]
    simp only [hchunk, hsync]

/-- Witness for `retry_sync_amended`: a uniformly failing operation is
attempted three times with delays 1000 and 2000, the error propagates, and
the single-record queue is left intact. -/
theorem retry_sync_amended_witness :
    retryOperation (fun _ => Except.error "boom") =
      (Except.error "boom", [1000, 2000]) ∧
    syncEpisodicOne (fun _ => Except.error "boom")
      [{ id := 1, timestamp := 2, entityId := 3, entityType := 0, posX := 4,
         posY := 5, importance := 3/4, fidelity := 1, emotionalImpact := 50 }] =
      (Except.error "boom",
       [{ id := 1, timestamp := 2, entityId := 3, entityType := 0, posX := 4,
          posY := 5, importance := 3/4, fidelity := 1, emotionalImpact := 50 }]) := by
  have h := retry_sync_amended (fun _ => Except.error "boom") (fun _ => "boom")
    (fun _ _ => rfl) (fun _ => Except.error "boom") "boom" (fun _ => rfl)
    [{ id := 1, timestamp := 2, entityId := 3, entityType := 0, posX := 4,
       posY := 5, importance := 3/4, fidelity := 1, emotionalImpact := 50 }]
    (by simp)
  simpa [Config.RETRY_DELAY] using h

/-- C1: for a freshly initialized agent (memory id 7) that *has* recorded an
episodic memory but for which `consolidateMemories` has never run, the
read-only queries return empty as designed, but the enhanced decision
system's `longTermMemory.get(memoryId).filter(...)` step hits `undefined`
and throws (modelled as `none`): the per-tick decision processing does not
complete without error. -/
theorem decision_longterm_throws :
    (lookupAssoc (recordEpisodicMemory (initMMState 7) 7
        { entityId := 5, entityType := 0, posX := 1, posY := 2, importance := 1/2 }
        3 (some 50) 0).episodicQueue 7).isSome = true ∧
    getSemanticPatterns (recordEpisodicMemory (initMMState 7) 7
        { entityId := 5, entityType := 0, posX := 1, posY := 2, importance := 1/2 }
        3 (some 50) 0) 7 = [] ∧
    findRelevantPatterns (recordEpisodicMemory (initMMState 7) 7
        { entityId := 5, entityType := 0, posX := 1, posY := 2, importance := 1/2 }
        3 (some 50) 0) 7 = [] ∧
    decisionEmotionalMemories (recordEpisodicMemory (initMMState 7) 7
        { entityId := 5, entityType := 0, posX := 1, posY := 2, importance := 1/2 }
        3 (some 50) 0) 7 50 = none := by
  refine ⟨?_, ?_, ?_, ?_⟩ <;>
    simp [recordEpisodicMemory, initMMState, lookupAssoc, setAssoc,
      decisionEmotionalMemories, getSemanticPatterns, findRelevantPatterns]

/-- C3: `extractResourcePatterns` pre-filters the record set to
resource-kind records (`entityType = 0`) and then asks
`_extractProximityPattern` for neighbors of `entityType = 1` *inside that
resources-only list*, so the neighbor count is always 0, the confidence is
always 0 and a `resource_obstacle_proximity` pattern is never emitted — in
particular not on a record set (three resources hugging an obstacle in space
and time) for which the spec-side fraction is 1 > 0.3. -/
theorem proximity_pattern_never_emitted :
    (∀ memories : List EpisodicMem, extractResourceObstacleProximity memories = none) ∧
    extractResourceObstacleProximity
      [{ id := 0, timestamp := 0, entityId := 1, entityType := 0, posX := 0,
         posY := 0, importance := 1/2, fidelity := 1, emotionalImpact := 50 },
       { id := 1, timestamp := 1, entityId := 2, entityType := 0, posX := 1,
         posY := 0, importance := 1/2, fidelity := 1, emotionalImpact := 50 },
       { id := 2, timestamp := 2, entityId := 3, entityType := 0, posX := 2,
         posY := 0, importance := 1/2, fidelity := 1, emotionalImpact := 50 },
       { id := 3, timestamp := 1, entityId := 4, entityType := 1, posX := 1,
         posY := 1, importance := 1/2, fidelity := 1, emotionalImpact := 50 }] = none ∧
    specResourceObstacleFraction
      [{ id := 0, timestamp := 0, entityId := 1, entityType := 0, posX := 0,
         posY := 0, importance := 1/2, fidelity := 1, emotionalImpact := 50 },
       { id := 1, timestamp := 1, entityId := 2, entityType := 0, posX := 1,
         posY := 0, importance := 1/2, fidelity := 1, emotionalImpact := 50 },
       { id := 2, timestamp := 2, entityId := 3, entityType := 0, posX := 2,
         posY := 0, importance := 1/2, fidelity := 1, emotionalImpact := 50 },
       { id := 3, timestamp := 1, entityId := 4, entityType := 1, posX := 1,
         posY := 1, importance := 1/2, fidelity := 1, emotionalImpact := 50 }] = 1 ∧
    (3:ℚ)/10 < 1 := by
  have huniv : ∀ memories : List EpisodicMem,
      extractResourceObstacleProximity memories = none := by
    intro ms
    unfold extractResourceObstacleProximity
    by_cases hlen : (ms.filter fun m => decide (m.entityType = 0)).length < 3
    · rw [if_pos hlen]
    · rw [if_neg hlen]
      have hcount : proximalCount (ms.filter fun m => decide (m.entityType = 0)) 1 = 0 := by
        unfold proximalCount
        rw [List.length_eq_zero, List.filter_eq_nil]
        intro ia _
        simp only [Bool.not_eq_true, List.any_eq_false]
        intro jb hjb
        have hsnd : jb.2 ∈ ms.filter fun m => decide (m.entityType = 0) := by
          have h1 := List.mem_map_of_mem Prod.snd hjb
          rwa [List.enum_map_snd] at h1
        have htype : jb.2.entityType = 0 :=
          of_decide_eq_true (List.mem_filter.mp hsnd).2
        simp [proximalNeighborTest, htype]
      unfold extractProximityPattern
      rw [hcount]
      norm_num
  refine ⟨huniv, huniv _, ?_, by norm_num⟩
  norm_num [specResourceObstacleFraction, proximalNeighborTest, List.filter, List.any]

theorem foldlMin_le_init (l : List KnowledgeEntry) (a : ℚ) :
    l.foldl (fun m e => min m e.confidence) a ≤ a := by
  induction l generalizing a with
  | nil => simp
  | cons x xs ih =>
    simp only [List.foldl_cons]
    exact le_trans (ih (min a x.confidence)) (min_le_left _ _)

theorem foldlMin_le_mem (l : List KnowledgeEntry) (a : ℚ) :
    ∀ e ∈ l, l.foldl (fun m e => min m e.confidence) a ≤ e.confidence := by
  induction l generalizing a with
  | nil => intro e he; cases he
  | cons x xs ih =>
    intro e he
    rcases List.mem_cons.mp he with rfl | hmem
    · simp only [List.foldl_cons]
      exact le_trans (foldlMin_le_init xs (min a e.confidence)) (min_le_right _ _)
    · exact ih (min a x.confidence) e hmem

theorem foldlMin_attained (l : List KnowledgeEntry) (a : ℚ) :
    l.foldl (fun m e => min m e.confidence) a = a ∨
      ∃ e ∈ l, l.foldl (fun m e => min m e.confidence) a = e.confidence := by
  induction l generalizing a with
  | nil => exact Or.inl rfl
  | cons x xs ih =>
    simp only [List.foldl_cons]
    rcases ih (min a x.confidence) with h | ⟨e, he, h⟩
    · rcases min_choice a x.confidence with hm | hm
      · exact Or.inl (h.trans hm)
      · exact Or.inr ⟨x, List.mem_cons_self _ _, h.trans hm⟩
    · exact Or.inr ⟨e, List.mem_cons_of_mem _ he, h⟩

theorem eraseP_min_decomp (m : ℚ) :
    ∀ l : List KnowledgeEntry, (∀ e ∈ l, m ≤ e.confidence) →
      (∃ e ∈ l, e.confidence = m) →
      ∃ l1 w l2, l = l1 ++ w :: l2 ∧ (∀ e ∈ l1, m < e.confidence) ∧
        w.confidence = m ∧
        l.eraseP (fun e => decide (e.confidence = m)) = l1 ++ l2 := by
  intro l
  induction l with
  | nil =>
    intro _ hat
    rcases hat with ⟨e, he, _⟩
    cases he
  | cons x xs ih =>
    intro hlb hat
    by_cases hx : x.confidence = m
    · refine ⟨[], x, xs, by simp, by simp, hx, ?_⟩
      rw [List.eraseP_cons_of_pos (by simp [hx])]
      simp
    · have hat' : ∃ e ∈ xs, e.confidence = m := by
        rcases hat with ⟨e, he, hem⟩
        rcases List.mem_cons.mp he with rfl | hmem
        · exact absurd hem hx
        · exact ⟨e, hmem, hem⟩
      have hlb' : ∀ e ∈ xs, m ≤ e.confidence :=
        fun e he => hlb e (List.mem_cons_of_mem _ he)
      obtain ⟨l1, w, l2, heq, hgt, hw, her⟩ := ih hlb' hat'
      refine ⟨x :: l1, w, l2, by rw [heq]; rfl, ?_, hw, ?_⟩
      · intro e he
        rcases List.mem_cons.mp he with rfl | hmem
        · exact lt_of_le_of_ne (hlb e (List.mem_cons_self _ _)) (Ne.symm hx)
        · exact hgt e hmem
      · rw [List.eraseP_cons_of_neg (by simp [hx]), her]
        rfl

theorem evictWeakest_decomp (e0 : KnowledgeEntry) (rest : List KnowledgeEntry) :
    ∃ l1 w l2, e0 :: rest = l1 ++ w :: l2 ∧
      (∀ e ∈ l1, w.confidence < e.confidence) ∧
      (∀ e ∈ e0 :: rest, w.confidence ≤ e.confidence) ∧
      evictWeakest (e0 :: rest) = l1 ++ l2 := by
  have hlb : ∀ e ∈ e0 :: rest, minConfidence e0 rest ≤ e.confidence := by
    intro e he
    rcases List.mem_cons.mp he with rfl | hmem
    · exact foldlMin_le_init rest e.confidence
    · exact foldlMin_le_mem rest e0.confidence e hmem
  have hat : ∃ e ∈ e0 :: rest, e.confidence = minConfidence e0 rest := by
    rcases foldlMin_attained rest e0.confidence with h | ⟨e, he, h⟩
    · exact ⟨e0, List.mem_cons_self _ _, h.symm⟩
    · exact ⟨e, List.mem_cons_of_mem _ he, h.symm⟩
  obtain ⟨l1, w, l2, heq, hgt, hw, her⟩ :=
    eraseP_min_decomp (minConfidence e0 rest) (e0 :: rest) hlb hat
  refine ⟨l1, w, l2, heq, fun e he => hw ▸ hgt e he, fun e he => hw ▸ hlb e he, ?_⟩
  exact her

theorem evictWeakest_cons_length (e0 : KnowledgeEntry) (rest : List KnowledgeEntry) :
    (evictWeakest (e0 :: rest)).length = rest.length := by
  obtain ⟨l1, w, l2, heq, _, _, her⟩ := evictWeakest_decomp e0 rest
  have hlen : (e0 :: rest).length = l1.length + l2.length + 1 := by
    rw [heq]
    simp [List.length_append]
    omega
  rw [her]
  simp only [List.length_cons] at hlen
  simp [List.length_append]
  omega

theorem updateFirst_length (p : α → Bool) (f : α → α) :
    ∀ l : List α, (updateFirst p f l).length = l.length := by
  intro l
  induction l with
  | nil => rfl
  | cons x xs ih =>
    unfold updateFirst
    by_cases hx : p x
    · rw [if_pos hx]
      simp [ih]
    · rw [if_neg hx]
      simp [ih]

theorem insertWithCap_length_le (l : List KnowledgeEntry) (cap : Nat)
    (x : KnowledgeEntry) (hcap : 0 < cap) (h : l.length ≤ cap) :
    ((if l.length ≥ cap then evictWeakest l else l) ++ [x]).length ≤ cap := by
  by_cases hge : l.length ≥ cap
  · have hfull : l.length = cap := le_antisymm h hge
    cases l with
    | nil => simp at hfull; omega
    | cons e0 rest =>
      rw [if_pos hge]
      rw [List.length_append, evictWeakest_cons_length]
      simp only [List.length_cons] at hfull
      simp
      omega
  · rw [if_neg hge]
    rw [List.length_append]
    simp
    omega

/-- C6: tier capacity and eviction.  For each of the three tiers (capacities
20/15/10 for low/mid/high): inserting via the tier's `add*LevelKnowledge`
never pushes the entry count above the capacity, and inserting a
non-duplicate entry into an exactly-full tier evicts the first (in insertion
order) entry of minimal confidence — the evicted entry's confidence is
strictly below every entry preceding it and at most every entry of the
tier — and appends the new entry. -/
theorem tier_capacity_eviction (low mid high : List KnowledgeEntry)
    (p : KPattern) (envId : Nat) (srcs : List KnowledgeEntry)
    (envs : List Nat) (now : ℤ) :
    (low.length ≤ Config.LOW_LEVEL_CAPACITY →
      (addLowLevelKnowledge low p envId now).length ≤ Config.LOW_LEVEL_CAPACITY) ∧
    (mid.length ≤ Config.MID_LEVEL_CAPACITY →
      (addMidLevelKnowledge mid p srcs now).length ≤ Config.MID_LEVEL_CAPACITY) ∧
    (high.length ≤ Config.HIGH_LEVEL_CAPACITY →
      (addHighLevelKnowledge high p envs now).length ≤ Config.HIGH_LEVEL_CAPACITY) ∧
    (low.length = Config.LOW_LEVEL_CAPACITY →
      (∀ e ∈ low, patternsMatch e.pattern p = false) →
      ∃ l1 w l2, low = l1 ++ w :: l2 ∧
        (∀ e ∈ l1, w.confidence < e.confidence) ∧
        (∀ e ∈ low, w.confidence ≤ e.confidence) ∧
        addLowLevelKnowledge low p envId now =
          (l1 ++ l2) ++ [KnowledgeEntry.mk0 p .low (some envId) now]) ∧
    (mid.length = Config.MID_LEVEL_CAPACITY →
      (∀ e ∈ mid, patternsMatch e.pattern p = false) →
      ∃ l1 w l2, mid = l1 ++ w :: l2 ∧
        (∀ e ∈ l1, w.confidence < e.confidence) ∧
        (∀ e ∈ mid, w.confidence ≤ e.confidence) ∧
        addMidLevelKnowledge mid p srcs now =
          (l1 ++ l2) ++
            [({ KnowledgeEntry.mk0 p .mid none now with
                environmentIds :=
                  pushNewEnvIds (KnowledgeEntry.mk0 p .mid none now).environmentIds
                    (sourceEnvironmentIds srcs) }).addInstance none now]) ∧
    (high.length = Config.HIGH_LEVEL_CAPACITY →
      (∀ e ∈ high, (decide (e.pattern.type = p.type) &&
        e.pattern.universalPrinciple) = false) →
      ∃ l1 w l2, high = l1 ++ w :: l2 ∧
        (∀ e ∈ l1, w.confidence < e.confidence) ∧
        (∀ e ∈ high, w.confidence ≤ e.confidence) ∧
        addHighLevelKnowledge high p envs now =
          (l1 ++ l2) ++
            [({ KnowledgeEntry.mk0 p .high none now with
                environmentIds :=
                  pushNewEnvIds (KnowledgeEntry.mk0 p .high none now).environmentIds
                    envs }).addInstance none now]) := by
  refine ⟨?_, ?_, ?_, ?_, ?_, ?_⟩
  · intro hle
    unfold addLowLevelKnowledge
    by_cases hdup : low.any (fun e => patternsMatch e.pattern p) = true
    · rw [if_pos hdup, updateFirst_length]
      exact hle
    · rw [if_neg hdup]
      exact insertWithCap_length_le low _ _ (by norm_num [Config.LOW_LEVEL_CAPACITY]) hle
  · intro hle
    unfold addMidLevelKnowledge
    by_cases hdup : mid.any (fun e => patternsMatch e.pattern p) = true
    · rw [if_pos hdup, updateFirst_length]
      exact hle
    · rw [if_neg hdup]
      exact insertWithCap_length_le mid _ _ (by norm_num [Config.MID_LEVEL_CAPACITY]) hle
  · intro hle
    unfold addHighLevelKnowledge
    by_cases hdup : high.any (fun e => decide (e.pattern.type = p.type) &&
        e.pattern.universalPrinciple) = true
    · rw [if_pos hdup, updateFirst_length]
      exact hle
    · rw [if_neg hdup]
      exact insertWithCap_length_le high _ _ (by norm_num [Config.HIGH_LEVEL_CAPACITY]) hle
  · intro hfull hnodup
    cases low with
    | nil => simp [Config.LOW_LEVEL_CAPACITY] at hfull
    | cons e0 rest =>
      obtain ⟨l1, w, l2, heq, hgt, hle, her⟩ := evictWeakest_decomp e0 rest
      refine ⟨l1, w, l2, heq, hgt, hle, ?_⟩
      unfold addLowLevelKnowledge
      rw [if_neg (by rw [Bool.not_eq_true, List.any_eq_false]
                     intro x hx
                     simp [hnodup x hx]),
        if_pos (le_of_eq hfull.symm), her]
  · intro hfull hnodup
    cases mid with
    | nil => simp [Config.MID_LEVEL_CAPACITY] at hfull
    | cons e0 rest =>
      obtain ⟨l1, w, l2, heq, hgt, hle, her⟩ := evictWeakest_decomp e0 rest
      refine ⟨l1, w, l2, heq, hgt, hle, ?_⟩
      unfold addMidLevelKnowledge
      rw [if_neg (by rw [Bool.not_eq_true, List.any_eq_false]
                     intro x hx
                     simp [hnodup x hx]),
        if_pos (le_of_eq hfull.symm), her]
  · intro hfull hnodup
    cases high with
    | nil => simp [Config.HIGH_LEVEL_CAPACITY] at hfull
    | cons e0 rest =>
      obtain ⟨l1, w, l2, heq, hgt, hle, her⟩ := evictWeakest_decomp e0 rest
      refine ⟨l1, w, l2, heq, hgt, hle, ?_⟩
      unfold addHighLevelKnowledge
      rw [if_neg (by rw [Bool.not_eq_true, List.any_eq_false]
                     intro x hx
                     simp [hnodup x hx]),
        if_pos (le_of_eq hfull.symm), her]

/-- Witness for `tier_capacity_eviction`: inserting a fresh `"b"`-type
pattern into a full low tier of twenty `"a"`-type entries stays within
capacity and evicts a minimal-confidence entry. -/
theorem tier_capacity_eviction_witness :
    (addLowLevelKnowledge
        (List.replicate 20 (mkEntry "a" KLevel.low (1/2) [] []))
        { type := "b", conditions := [], outcome := [], universalPrinciple := false }
        3 0).length ≤ Config.LOW_LEVEL_CAPACITY ∧
    ∃ l1 w l2,
      List.replicate 20 (mkEntry "a" KLevel.low (1/2) [] []) = l1 ++ w :: l2 ∧
      (∀ e ∈ l1, w.confidence < e.confidence) ∧
      (∀ e ∈ List.replicate 20 (mkEntry "a" KLevel.low (1/2) [] []),
        w.confidence ≤ e.confidence) ∧
      addLowLevelKnowledge (List.replicate 20 (mkEntry "a" KLevel.low (1/2) [] []))
        { type := "b", conditions := [], outcome := [], universalPrinciple := false }
        3 0 =
        (l1 ++ l2) ++
          [KnowledgeEntry.mk0
            { type := "b", conditions := [], outcome := [], universalPrinciple := false }
            KLevel.low (some 3) 0] := by
  have hnodup : ∀ e ∈ List.replicate 20 (mkEntry "a" KLevel.low (1/2) [] []),
      patternsMatch e.pattern
        { type := "b", conditions := [], outcome := [], universalPrinciple := false } =
        false := by
    intro e he
    rw [List.eq_of_mem_replicate he]
    decide
  have h := tier_capacity_eviction
    (List.replicate 20 (mkEntry "a" KLevel.low (1/2) [] [])) [] []
    { type := "b", conditions := [], outcome := [], universalPrinciple := false }
    3 [] [] 0
  exact ⟨h.1 (by simp [Config.LOW_LEVEL_CAPACITY]),
    h.2.2.2.1 (by simp [Config.LOW_LEVEL_CAPACITY]) hnodup⟩

theorem groupStep_inv1 (acc : List (String × List KnowledgeEntry))
    (processed : List KnowledgeEntry) (x : KnowledgeEntry)
    (hinv1 : ∀ g ∈ acc, g.2 = processed.filter fun e => decide (e.pattern.type = g.1))
    (hinv2 : ∀ e ∈ processed, ∃ g ∈ acc, g.1 = e.pattern.type) :
    ∀ g ∈ groupStep acc x,
      g.2 = (processed ++ [x]).filter fun e => decide (e.pattern.type = g.1) := by
  intro g hg
  unfold groupStep at hg
  by_cases hpresent : acc.any (fun g => decide (g.1 = x.pattern.type)) = true
  · rw [if_pos hpresent] at hg
    rcases List.mem_map.mp hg with ⟨g0, hg0, rfl⟩
    by_cases hg0t : g0.1 = x.pattern.type
    · rw [if_pos hg0t]
      simp only [List.filter_append]
      rw [← hinv1 g0 hg0]
      simp [hg0t]
    · rw [if_neg hg0t]
      simp only [List.filter_append]
      rw [← hinv1 g0 hg0]
      have hx : decide (x.pattern.type = g0.1) = false := by
        simp
        exact fun hc => hg0t hc.symm
      simp [hx]
  · rw [if_neg hpresent] at hg
    have hnotype : ∀ t, (t ∈ acc.map Prod.fst) → t ≠ x.pattern.type := by
      intro t ht hteq
      apply hpresent
      rw [List.any_eq_true]
      rcases List.mem_map.mp ht with ⟨g1, hg1, rfl⟩
      exact ⟨g1, hg1, by simp [hteq]⟩
    rcases List.mem_append.mp hg with hgacc | hgnew
    · have hx : decide (x.pattern.type = g.1) = false := by
        simp
        intro hc
        exact hnotype g.1 (List.mem_map_of_mem Prod.fst hgacc) hc.symm
      simp only [List.filter_append]
      rw [← hinv1 g hgacc]
      simp [hx]
    · have hgeq : g = (x.pattern.type, [x]) := by simpa using hgnew
      subst hgeq
      simp only [List.filter_append]
      have hproc : processed.filter
          (fun e => decide (e.pattern.type = x.pattern.type)) = [] := by
        rw [List.filter_eq_nil_iff]
        intro e he
        simp only [decide_eq_true_eq]
        intro hc
        rcases hinv2 e he with ⟨g1, hg1, hgt⟩
        exact hnotype g1.1 (List.mem_map_of_mem Prod.fst hg1) (hgt.trans hc)
      simp [hproc]

theorem groupStep_inv2 (acc : List (String × List KnowledgeEntry))
    (processed : List KnowledgeEntry) (x : KnowledgeEntry)
    (hinv2 : ∀ e ∈ processed, ∃ g ∈ acc, g.1 = e.pattern.type) :
    ∀ e ∈ processed ++ [x], ∃ g ∈ groupStep acc x, g.1 = e.pattern.type := by
  intro e he
  unfold groupStep
  by_cases hpresent : acc.any (fun g => decide (g.1 = x.pattern.type)) = true
  · rw [if_pos hpresent]
    have hkey : ∀ g1 ∈ acc, ∃ g2 ∈ acc.map
        (fun g => if g.1 = x.pattern.type then (g.1, g.2 ++ [x]) else g),
        g2.1 = g1.1 := by
      intro g1 hg1
      refine ⟨if g1.1 = x.pattern.type then (g1.1, g1.2 ++ [x]) else g1,
        List.mem_map_of_mem _ hg1, ?_⟩
      by_cases hc : g1.1 = x.pattern.type
      · rw [if_pos hc]
      · rw [if_neg hc]
    rcases List.mem_append.mp he with hep | hex
    · rcases hinv2 e hep with ⟨g1, hg1, hgt⟩
      rcases hkey g1 hg1 with ⟨g2, hg2, hg2t⟩
      exact ⟨g2, hg2, hg2t.trans hgt⟩
    · have : e = x := by simpa using hex
      subst this
      rcases List.any_eq_true.mp hpresent with ⟨g1, hg1, hgt⟩
      rcases hkey g1 hg1 with ⟨g2, hg2, hg2t⟩
      exact ⟨g2, hg2, hg2t.trans (of_decide_eq_true hgt)⟩
  · rw [if_neg hpresent]
    rcases List.mem_append.mp he with hep | hex
    · rcases hinv2 e hep with ⟨g1, hg1, hgt⟩
      exact ⟨g1, List.mem_append_left _ hg1, hgt⟩
    · have : e = x := by simpa using hex
      subst this
      exact ⟨(e.pattern.type, [e]), List.mem_append_right _ (by simp), rfl⟩

theorem groupByType_go (l : List KnowledgeEntry) :
    ∀ (acc : List (String × List KnowledgeEntry)) (processed : List KnowledgeEntry),
      (∀ g ∈ acc, g.2 = processed.filter fun e => decide (e.pattern.type = g.1)) →
      (∀ e ∈ processed, ∃ g ∈ acc, g.1 = e.pattern.type) →
      ∀ g ∈ l.foldl groupStep acc,
        g.2 = (processed ++ l).filter fun e => decide (e.pattern.type = g.1) := by
  induction l with
  | nil =>
    intro acc processed hinv1 _ g hg
    simp only [List.foldl_nil] at hg
    rw [List.append_nil]
    exact hinv1 g hg
  | cons x xs ih =>
    intro acc processed hinv1 hinv2 g hg
    simp only [List.foldl_cons] at hg
    have h := ih (groupStep acc x) (processed ++ [x])
      (groupStep_inv1 acc processed x hinv1 hinv2)
      (groupStep_inv2 acc processed x hinv2) g hg
    rwa [List.append_assoc, List.singleton_append] at h

theorem groupByType_groups (l : List KnowledgeEntry) :
    ∀ g ∈ groupByType l, g.2 = l.filter fun e => decide (e.pattern.type = g.1) := by
  intro g hg
  have h := groupByType_go l [] [] (by simp) (by simp) g hg
  simpa using h

/-- C7: the low→mid promotion gate.  Whenever `generalizeLowToMid` emits a
mid-level candidate pattern `p` from source entries `srcs`, the agent's low
tier holds at least `ABSTRACTION_INSTANCE_THRESHOLD = 5` entries of that
pattern type; `srcs` is exactly the subset of them with confidence at least
`ABSTRACTION_CONFIDENCE_THRESHOLD = 0.6` and has at least 3 elements (so a
mid-level entry is never created from fewer than 3 confident same-type
low-level sources); and those sources share at least one common
property/operator condition, which is what `p`'s conditions generalize. -/
theorem mid_promotion_gate (low : List KnowledgeEntry) (p : KPattern)
    (srcs : List KnowledgeEntry) (hc : (p, srcs) ∈ midCandidates low) :
    Config.ABSTRACTION_INSTANCE_THRESHOLD ≤
      (low.filter fun e => decide (e.pattern.type = p.type)).length ∧
    srcs = (low.filter fun e => decide (e.pattern.type = p.type)).filter
      (fun e => decide (Config.ABSTRACTION_CONFIDENCE_THRESHOLD ≤ e.confidence)) ∧
    3 ≤ srcs.length ∧
    (∀ e ∈ srcs, e.pattern.type = p.type ∧
      Config.ABSTRACTION_CONFIDENCE_THRESHOLD ≤ e.confidence) ∧
    findCommonConditions srcs ≠ [] ∧
    p.conditions = findCommonConditions srcs := by
  rcases List.mem_filterMap.mp hc with ⟨g, hg, hf⟩
  by_cases h5 : g.2.length < Config.ABSTRACTION_INSTANCE_THRESHOLD
  · rw [if_pos h5] at hf
    cases hf
  rw [if_neg h5] at hf
  set confident := g.2.filter
    (fun e => decide (Config.ABSTRACTION_CONFIDENCE_THRESHOLD ≤ e.confidence))
    with hconfdef
  by_cases h3 : confident.length < 3
  · rw [if_pos h3] at hf
    cases hf
  rw [if_neg h3] at hf
  by_cases hcc : (findCommonConditions confident).length = 0
  · rw [if_pos hcc] at hf
    cases hf
  rw [if_neg hcc] at hf
  have hinj := Option.some.inj hf
  have hp : p =
      { type := g.1
        conditions := findCommonConditions confident
        outcome := aggregateOutcomes confident
        universalPrinciple := false } :=
    (congrArg Prod.fst hinj).symm
  have hs : srcs = confident := (congrArg Prod.snd hinj).symm
  have htype : p.type = g.1 := by rw [hp]
  have hgrp : g.2 = low.filter fun e => decide (e.pattern.type = g.1) :=
    groupByType_groups low g hg
  rw [htype, ← hgrp]
  refine ⟨not_lt.mp h5, hs, ?_, ?_, ?_, ?_⟩
  · rw [hs]
    exact not_lt.mp h3
  · intro e he
    rw [hs] at he
    have hconf := of_decide_eq_true (List.mem_filter.mp he).2
    have hmem := (List.mem_filter.mp he).1
    rw [hgrp] at hmem
    have := of_decide_eq_true (List.mem_filter.mp hmem).2
    exact ⟨this, hconf⟩
  · rw [hs]
    intro hnil
    rw [← hs, hs, hnil] at hcc
    simp at hcc
  · rw [hp, hs]

/-- Witness for `mid_promotion_gate`: five identical confident
`"resource_location"` entries sharing one `("x", "equals")` condition
produce a mid-level candidate whose sources are those five entries. -/
theorem mid_promotion_gate_witness :
    3 ≤ (List.replicate 5 (mkEntryP
      { type := "resource_location"
        conditions := [{ property := "x", operator := "equals",
                         value := some (.bool true), valueRange := none,
                         generalized := false }]
        outcome := []
        universalPrinciple := false }
      KLevel.low (7/10) [1])).length ∧
    findCommonConditions (List.replicate 5 (mkEntryP
      { type := "resource_location"
        conditions := [{ property := "x", operator := "equals",
                         value := some (.bool true), valueRange := none,
                         generalized := false }]
        outcome := []
        universalPrinciple := false }
      KLevel.low (7/10) [1])) ≠ [] := by
  have hd : decide (Config.ABSTRACTION_CONFIDENCE_THRESHOLD ≤ (7:ℚ)/10) = true := by
    rw [decide_eq_true_eq]
    norm_num [Config.ABSTRACTION_CONFIDENCE_THRESHOLD]
  have hc : ({ type := "resource_location"
               conditions := [{ property := "x", operator := "equals",
                                value := some (.bool true), valueRange := none,
                                generalized := true }]
               outcome := []
               universalPrinciple := false },
             List.replicate 5 (mkEntryP
              { type := "resource_location"
                conditions := [{ property := "x", operator := "equals",
                                 value := some (.bool true), valueRange := none,
                                 generalized := false }]
                outcome := []
                universalPrinciple := false }
              KLevel.low (7/10) [1])) ∈
      midCandidates (List.replicate 5 (mkEntryP
        { type := "resource_location"
          conditions := [{ property := "x", operator := "equals",
                           value := some (.bool true), valueRange := none,
                           generalized := false }]
          outcome := []
          universalPrinciple := false }
        KLevel.low (7/10) [1])) := by
    simp only [List.replicate, midCandidates, groupByType, groupStep,
      List.foldl_cons, List.foldl_nil, List.any_cons, List.any_nil,
      List.filterMap, List.filter_cons, List.filter_nil, hd,
      findCommonConditions, condKeyMatches, generalizeConditionValues,
      aggregateOutcomes, outcomeProperties, mkEntryP,
      Config.ABSTRACTION_INSTANCE_THRESHOLD, List.find?, List.all_cons,
      List.all_nil, List.map_cons, List.map_nil]
    simp [mkEntryP, hd, condKeyMatches, generalizeConditionValues,
      List.find?, List.filterMap, aggregateOutcomes, outcomeProperties]
  have h := mid_promotion_gate _ _ _ hc
  refine ⟨?_, h.2.2.2.2.1⟩
  have hl := h.2.2.1
  omega

end HESMS
